import Mathlib

/-!
Shallow embedding of the core logic of `src/components/StatsTab.tsx`
(a React dashboard panel that polls a backend status endpoint):

* the data model (`SystemStatus`, `ApiCallLog`),
* the keyed call log updated by object spread (`logApiCall` / `setApiCalls`),
* the poll cycle (`fetchSystemStats` with its try/catch/finally),
* the polling scheduler (`useEffect` + `setInterval(fetchSystemStats, 30000)`),
* the pure presenters (`formatUptime`, `formatBytes`, `getStatusColor`).

JavaScript/React runtime facts built into the embedding are stated in the
doc comment of each definition that relies on them.
-/

/-- The `SystemStatus` interface of StatsTab.tsx: the status snapshot payload.
Numbers are modelled as `Int` (JS numbers carrying integer values). -/
structure SystemStatus where
  status : String
  uptime : Int
  moduleSession : String
  moduleDocumentProcessor : String
  moduleRetrieval : String
  moduleGeneration : String
  memRss : Int
  memHeapUsed : Int
  memHeapTotal : Int
  memExternal : Int
  perfAvgResponseTime : Option Int
  perfTotalRequests : Option Int
  perfActiveSessions : Option Int
  deriving Repr, DecidableEq

/-- The `ApiCallLog` interface of StatsTab.tsx.  `data` is `unknown` in the
source; the only values ever stored there are a `SystemStatus` payload or
`null`, so it is modelled as `Option SystemStatus`.  `error : string | null`
is `Option String`, and `status` is the literal string union
`'success' | 'error'`. -/
structure ApiCallLog where
  timestamp : String
  endpoint : String
  data : Option SystemStatus
  error : Option String
  status : String
  deriving Repr, DecidableEq

/-- A JavaScript `Error` object, reduced to the `message` field that the
code reads. -/
structure JsError where
  message : String
  deriving Repr, DecidableEq

/-- A value thrown by the awaited fetch: either an `Error` instance or some
other JS value, of which the code only ever uses its `String(err)`
rendering. -/
inductive Thrown where
  | err (e : JsError)
  | other (stringRepr : String)
  deriving Repr, DecidableEq

/-- Outcome of one `adminService.getSystemStatus()` call: it resolves with a
snapshot or rejects with a thrown value. -/
inductive FetchOutcome where
  | ok (statusData : SystemStatus)
  | fail (t : Thrown)
  deriving Repr, DecidableEq

/-- `err instanceof Error ? err.message : '알 수 없는 오류가 발생했습니다.'`
(line 116). -/
def errorMessageOf : Thrown → String
  | .err e => e.message
  | .other _ => "알 수 없는 오류가 발생했습니다."

/-- `err instanceof Error ? err : new Error(String(err))` (line 118). -/
def toJsError : Thrown → JsError
  | .err e => e
  | .other s => ⟨s⟩

/-- The log entry object built by `logApiCall` (lines 86-93).
`data: error ? null : data` — an `Error` object is always truthy, even with
an empty message.  `error: error?.message || null` — JS `||` replaces every
falsy left operand by `null`, and the only falsy string is `""`, so an empty
message is stored as `null`. -/
def mkLogEntry (timestamp endpoint : String) (data : Option SystemStatus)
    (e : Option JsError) : ApiCallLog :=
  { timestamp := timestamp
    endpoint := endpoint
    data := if e.isSome then none else data
    error := match e with
      | some ⟨msg⟩ => if msg = "" then none else some msg
      | none => none
    status := if e.isSome then "error" else "success" }

/-- The functional update `prev => ({ ...prev, [endpoint]: logEntry })`
(lines 95-98) on the `apiCalls` record.  JS objects enumerate string
(non-index-like) keys in insertion order of first appearance; spreading and
then writing one computed key keeps an existing key at its old position with
the new value, and appends the key at the end when it is new.  The record is
modelled as an association list in enumeration order. -/
def recordCall (prev : List (String × ApiCallLog)) (endpoint : String)
    (entry : ApiCallLog) : List (String × ApiCallLog) :=
  if (prev.lookup endpoint).isSome then
    prev.map (fun p => if p.1 = endpoint then (endpoint, entry) else p)
  else
    prev ++ [(endpoint, entry)]

/-- `formatUptime` (lines 133-137).  `Math.floor(x / y)` on integer-valued
JS numbers is flooring division (`Int.fdiv`); JS `%` is truncating remainder
(`Int.tmod`).  Total on all of `Int`, mirroring that the JS function cannot
throw on any numeric input. -/
def formatUptime (seconds : Int) : String :=
  let hours := Int.fdiv seconds 3600
  let minutes := Int.fdiv (Int.tmod seconds 3600) 60
  toString hours ++ "시간 " ++ toString minutes ++ "분"

/-- `formatBytes` (lines 139-142): `(bytes / (1024*1024)).toFixed(1) + " MB"`.
For a non-negative integer byte count below 2^53 the double division by
2^20 is exact (binary64 mantissas hold the integer exactly and dividing by a
power of two only shifts the exponent), and `toFixed(1)` then prints `n / 10`
for the integer `n` closest to the exact value times ten, preferring the
larger `n` on a tie — i.e. `n = ⌊(10·bytes + 2^19) / 2^20⌋`. -/
def formatBytes (bytes : Nat) : Nat :=
  (10 * bytes + 524288) / 1048576

/-- The string actually returned by `formatBytes` in the source: the rounded
tenths-of-a-megabyte count rendered with one fractional digit, then `" MB"`. -/
def formatBytesStr (bytes : Nat) : String :=
  let n := formatBytes bytes
  Nat.repr (n / 10) ++ "." ++ Nat.repr (n % 10) ++ " MB"

/-- JS `String.prototype.toLowerCase()`, restricted to the basic-latin
range on which it agrees with `Char.toLower` (the status labels the panel
classifies are all ASCII): lowercase every character of the string. -/
def jsToLowerCase (s : String) : String :=
  ⟨s.data.map Char.toLower⟩

/-- `getStatusColor` (lines 144-158): `switch (status.toLowerCase())` with
fall-through groups. -/
def getStatusColor (status : String) : String :=
  let s := jsToLowerCase status
  if s = "healthy" ∨ s = "active" ∨ s = "running" then "success"
  else if s = "warning" then "warning"
  else if s = "error" ∨ s = "failed" then "error"
  else "default"

/-- The `useState` slots of the `StatsTab` component, plus a `mounted` flag
recording whether the component is still mounted.  React discards a state
update dispatched to an unmounted component: the component will never render
again and its state object is garbage, so post-unmount dispatches have no
observable effect.  Each setter below is therefore a no-op when
`mounted = false`. -/
structure PanelState where
  mounted : Bool
  systemStatus : Option SystemStatus
  loading : Bool
  debugMode : Bool
  apiCalls : List (String × ApiCallLog)
  error : Option String
  deriving Repr, DecidableEq

/-- `setSystemStatus`, gated on the component still being mounted. -/
def setSystemStatus (st : PanelState) (v : Option SystemStatus) : PanelState :=
  if st.mounted then { st with systemStatus := v } else st

/-- `setLoading`, gated on the component still being mounted. -/
def setLoading (st : PanelState) (v : Bool) : PanelState :=
  if st.mounted then { st with loading := v } else st

/-- `setError`, gated on the component still being mounted. -/
def setError (st : PanelState) (v : Option String) : PanelState :=
  if st.mounted then { st with error := v } else st

/-- `setApiCalls` with a functional update, gated on the component still
being mounted. -/
def setApiCalls (st : PanelState)
    (f : List (String × ApiCallLog) → List (String × ApiCallLog)) : PanelState :=
  if st.mounted then { st with apiCalls := f st.apiCalls } else st

/-- `logApiCall(endpoint, data, error?)` (lines 85-99).  The timestamp
`new Date().toISOString()` is passed in explicitly. -/
def logApiCall (st : PanelState) (timestamp endpoint : String)
    (data : Option SystemStatus) (e : Option JsError) : PanelState :=
  setApiCalls st (fun prev => recordCall prev endpoint (mkLogEntry timestamp endpoint data e))

/-- The endpoint key used by both `logApiCall` call sites in
`fetchSystemStats`. -/
def statusEndpoint : String := "/api/admin/status"

/-- The part of `fetchSystemStats` (lines 102-103) that runs before the
`await`: `setLoading(true); setError(null)`. -/
def fetchStart (st : PanelState) : PanelState :=
  setError (setLoading st true) none

/-- The part of `fetchSystemStats` that runs when the awaited fetch settles
(lines 109-122): on success `logApiCall` then `setSystemStatus`; on a thrown
value `logApiCall` with the normalized error then `setError`; in both cases
the `finally` block runs `setLoading(false)` last. -/
def fetchResolve (st : PanelState) (timestamp : String) (o : FetchOutcome) : PanelState :=
  match o with
  | .ok statusData =>
      setLoading (setSystemStatus
        (logApiCall st timestamp statusEndpoint (some statusData) none)
        (some statusData)) false
  | .fail t =>
      setLoading (setError
        (logApiCall st timestamp statusEndpoint none (some (toJsError t)))
        (some (errorMessageOf t))) false

/-- One complete poll cycle of `fetchSystemStats`, when the component stays
mounted throughout: the pre-await part followed by the resolution part. -/
def pollCycle (st : PanelState) (timestamp : String) (o : FetchOutcome) : PanelState :=
  fetchResolve (fetchStart st) timestamp o

/-- The component state right after mount: `useState(null)`,
`useState(false)`, `useState(false)`, `useState({})`, `useState(null)`. -/
def initialPanel : PanelState :=
  { mounted := true
    systemStatus := none
    loading := false
    debugMode := false
    apiCalls := []
    error := none }

/-- A call-log state reachable by a sequence of `recordCall` operations from
the initial empty record. -/
def runLog (ops : List (String × ApiCallLog)) : List (String × ApiCallLog) :=
  ops.foldl (fun l p => recordCall l p.1 p.2) []

/-- Written from the spec's words for comparison: the insertion order of
each key's first appearance in a sequence of recorded keys. -/
def firstSeenOrder (ks : List String) : List String :=
  ks.foldl (fun acc k => if k ∈ acc then acc else acc ++ [k]) []

/-- The polling interval of `setInterval(fetchSystemStats, 30000)`
(line 129). -/
def pollIntervalMs : Nat := 30000

/-- State of the polling scheduler set up by the `useEffect` (lines
125-131): whether the interval timer is still armed, wall-clock milliseconds
elapsed since the effect ran, and how many times `fetchSystemStats` has been
invoked. -/
structure SchedState where
  active : Bool
  elapsed : Nat
  invocations : Nat
  deriving Repr, DecidableEq

/-- Running the effect body: one immediate `fetchSystemStats()` call, then
`setInterval` arms a timer that fires at every multiple of `pollIntervalMs`
thereafter. -/
def schedActivate : SchedState :=
  { active := true, elapsed := 0, invocations := 1 }

/-- Wall-clock time advancing by `ms` milliseconds.  While the timer is
armed, `setInterval` fires once at each multiple of `pollIntervalMs` since
activation that the advance crosses; after `clearInterval` nothing fires. -/
def schedElapse (s : SchedState) (ms : Nat) : SchedState :=
  if s.active then
    { active := true
      elapsed := s.elapsed + ms
      invocations := s.invocations +
        ((s.elapsed + ms) / pollIntervalMs - s.elapsed / pollIntervalMs) }
  else s

/-- The effect cleanup `clearInterval(interval)` (line 130), run on
unmount. -/
def schedDeactivate (s : SchedState) : SchedState :=
  { s with active := false }

/-- Scheduler state after activation followed by a sequence of wall-clock
advances. -/
def schedRun (chunks : List Nat) : SchedState :=
  chunks.foldl schedElapse schedActivate

lemma intFdivOfNat (m k : Nat) : Int.fdiv (Int.ofNat m) (Int.ofNat k) = Int.ofNat (m / k) := by
  cases m with
  | zero => simp [Int.fdiv, Nat.zero_div]
  | succ m => rfl

lemma intTmodOfNat (m k : Nat) : Int.tmod (Int.ofNat m) (Int.ofNat k) = Int.ofNat (m % k) := rfl

/-- C6: for every non-negative integer s, `formatUptime s` renders
hours = ⌊s/3600⌋ and minutes = ⌊(s mod 3600)/60⌋; the function is total on
all of `Int` and in particular defined (raising nothing) at the
out-of-contract input -1. -/
theorem formatUptime_spec :
    (∀ n : Nat, formatUptime (Int.ofNat n) =
      Nat.repr (n / 3600) ++ "시간 " ++ Nat.repr (n % 3600 / 60) ++ "분") ∧
    formatUptime (-1) = "-1시간 -1분" := by
  constructor
  · intro n
    show toString (Int.fdiv (Int.ofNat n) (Int.ofNat 3600)) ++ "시간 " ++
        toString (Int.fdiv (Int.tmod (Int.ofNat n) (Int.ofNat 3600)) (Int.ofNat 60)) ++ "분" = _
    rw [intTmodOfNat, intFdivOfNat, intFdivOfNat]
    rfl
  · rfl

/-- C7: `formatBytes` yields the byte count divided by 1024·1024 with one
fractional digit: the printed tenths-of-a-megabyte integer `w·10 + f` is the
floor of (10·bytes + 2^19)/2^20, i.e. the closest tenth (ties upward), and
the two stated examples print "1.0 MB" and "1.5 MB". -/
theorem formatBytes_spec :
    formatBytesStr 1048576 = "1.0 MB" ∧ formatBytesStr 1572864 = "1.5 MB" ∧
    ∀ b : Nat, ∃ w f : Nat, f < 10 ∧
      formatBytesStr b = Nat.repr w ++ "." ++ Nat.repr f ++ " MB" ∧
      (w * 10 + f) * 1048576 ≤ 10 * b + 524288 ∧
      10 * b + 524288 < (w * 10 + f + 1) * 1048576 := by
  refine ⟨rfl, rfl, fun b => ⟨formatBytes b / 10, formatBytes b % 10,
    Nat.mod_lt _ (by norm_num), rfl, ?_, ?_⟩⟩
  · have h1 := Nat.div_add_mod (formatBytes b) 10
    have h2 := Nat.div_add_mod (10 * b + 524288) 1048576
    have h3 : (10 * b + 524288) % 1048576 < 1048576 := Nat.mod_lt _ (by norm_num)
    unfold formatBytes at *
    omega
  · have h1 := Nat.div_add_mod (formatBytes b) 10
    have h2 := Nat.div_add_mod (10 * b + 524288) 1048576
    have h3 : (10 * b + 524288) % 1048576 < 1048576 := Nat.mod_lt _ (by norm_num)
    unfold formatBytes at *
    omega

/-- C8: `getStatusColor` is case-insensitive (it depends only on the
lowercased label), maps any casing of healthy/active/running to success,
warning to warning, error/failed to error, everything else to default, and
in particular "HEALTHY" and "healthy" to success and "unknown-label" to
default. -/
theorem getStatusColor_spec :
    (∀ s t : String, jsToLowerCase s = jsToLowerCase t → getStatusColor s = getStatusColor t) ∧
    (∀ s : String, jsToLowerCase s = "healthy" ∨ jsToLowerCase s = "active" ∨
      jsToLowerCase s = "running" → getStatusColor s = "success") ∧
    (∀ s : String, jsToLowerCase s = "warning" → getStatusColor s = "warning") ∧
    (∀ s : String, jsToLowerCase s = "error" ∨ jsToLowerCase s = "failed" →
      getStatusColor s = "error") ∧
    (∀ s : String, jsToLowerCase s ≠ "healthy" → jsToLowerCase s ≠ "active" →
      jsToLowerCase s ≠ "running" → jsToLowerCase s ≠ "warning" →
      jsToLowerCase s ≠ "error" → jsToLowerCase s ≠ "failed" →
      getStatusColor s = "default") ∧
    getStatusColor "HEALTHY" = "success" ∧ getStatusColor "healthy" = "success" ∧
    getStatusColor "unknown-label" = "default" := by
  refine ⟨?_, ?_, ?_, ?_, ?_, by decide, by decide, by decide⟩
  · intro s t h
    simp only [getStatusColor]
    rw [h]
  · intro s h
    simp only [getStatusColor]
    rcases h with h | h | h <;> rw [h] <;> decide
  · intro s h
    simp only [getStatusColor]
    rw [h]
    decide
  · intro s h
    simp only [getStatusColor]
    rcases h with h | h <;> rw [h] <;> decide
  · intro s h1 h2 h3 h4 h5 h6
    simp only [getStatusColor]
    rw [if_neg (not_or.mpr ⟨h1, not_or.mpr ⟨h2, h3⟩⟩), if_neg h4,
      if_neg (not_or.mpr ⟨h5, h6⟩)]

/-- C8 witness: the case-insensitivity, bucket and default components of
`getStatusColor_spec` applied at concrete labels. -/
theorem getStatusColor_spec_witness :
    getStatusColor "Healthy" = getStatusColor "hEALTHY" ∧
    getStatusColor "RUNNING" = "success" ∧
    getStatusColor "unknown" = "default" :=
  ⟨getStatusColor_spec.1 "Healthy" "hEALTHY" (by decide),
   getStatusColor_spec.2.1 "RUNNING" (by decide),
   getStatusColor_spec.2.2.2.2.1 "unknown" (by decide) (by decide) (by decide)
     (by decide) (by decide) (by decide)⟩

/-- C9: logging an `Error` whose message is the empty string stores an entry
with status "error" and data null whose error field is null rather than "",
because JS `error?.message || null` collapses the falsy empty string to
null. -/
theorem logEmptyMessage_spec (timestamp endpoint : String) (d : Option SystemStatus) :
    (mkLogEntry timestamp endpoint d (some ⟨""⟩)).status = "error" ∧
    (mkLogEntry timestamp endpoint d (some ⟨""⟩)).data = none ∧
    (mkLogEntry timestamp endpoint d (some ⟨""⟩)).error = none :=
  ⟨rfl, rfl, rfl⟩

lemma fstOfReplace (k : String) (v : ApiCallLog) (p : String × ApiCallLog) :
    (if p.1 = k then (k, v) else p).1 = p.1 := by
  by_cases h : p.1 = k <;> simp [h]

lemma recordCall_keys (l : List (String × ApiCallLog)) (k : String) (v : ApiCallLog) :
    (recordCall l k v).map Prod.fst =
      if (l.lookup k).isSome then l.map Prod.fst else l.map Prod.fst ++ [k] := by
  unfold recordCall
  cases h : (l.lookup k).isSome with
  | true =>
    simp only [h, if_true, List.map_map]
    exact List.map_congr_left (fun p _ => fstOfReplace k v p)
  | false => simp [h]

lemma lookup_map_replace (l : List (String × ApiCallLog)) (k : String) (v : ApiCallLog)
    (h : (l.lookup k).isSome = true) :
    (l.map (fun p => if p.1 = k then (k, v) else p)).lookup k = some v := by
  induction l with
  | nil => simp at h
  | cons p tl ih =>
    obtain ⟨a, b⟩ := p
    by_cases hak : a = k
    · subst hak
      simp [List.lookup_cons]
    · have hka : (k == a) = false := by simp [Ne.symm hak]
      have h' : (tl.lookup k).isSome = true := by
        simpa [List.lookup_cons, hka] using h
      simp [List.lookup_cons, hak, hka, ih h']

lemma lookup_recordCall_self (l : List (String × ApiCallLog)) (k : String) (v : ApiCallLog) :
    (recordCall l k v).lookup k = some v := by
  unfold recordCall
  cases h : (l.lookup k).isSome with
  | true =>
    simp only [h, if_true]
    exact lookup_map_replace l k v h
  | false =>
    have h0 : l.lookup k = none := by
      cases hl : l.lookup k with
      | none => rfl
      | some b => rw [hl] at h; simp at h
    simp [List.lookup_append, h0]

lemma lookup_map_replace_other (l : List (String × ApiCallLog)) (k : String) (v : ApiCallLog)
    (k' : String) (hne : k' ≠ k) :
    (l.map (fun p => if p.1 = k then (k, v) else p)).lookup k' = l.lookup k' := by
  induction l with
  | nil => simp
  | cons p tl ih =>
    obtain ⟨a, b⟩ := p
    by_cases hak : a = k
    · subst hak
      have hka : (k' == a) = false := by simp [hne]
      simp [List.lookup_cons, hka, ih]
    · cases hka : (k' == a) <;> simp [List.lookup_cons, hak, hka, ih]

lemma lookup_recordCall_other (l : List (String × ApiCallLog)) (k : String) (v : ApiCallLog)
    (k' : String) (hne : k' ≠ k) :
    (recordCall l k v).lookup k' = l.lookup k' := by
  unfold recordCall
  cases h : (l.lookup k).isSome with
  | true =>
    simp only [h, if_true]
    exact lookup_map_replace_other l k v k' hne
  | false =>
    have hkk : (k' == k) = false := by simp [hne]
    simp [List.lookup_append, List.lookup_cons, hkk]

/-- A concrete snapshot used to instantiate witnesses. -/
def sampleStatus : SystemStatus :=
  { status := "healthy"
    uptime := 3661
    moduleSession := "active"
    moduleDocumentProcessor := "active"
    moduleRetrieval := "active"
    moduleGeneration := "active"
    memRss := 1048576
    memHeapUsed := 2097152
    memHeapTotal := 4194304
    memExternal := 0
    perfAvgResponseTime := none
    perfTotalRequests := none
    perfActiveSessions := none }

/-- A concrete mounted panel that already displays a snapshot. -/
def mountedPanelWithData : PanelState :=
  { mounted := true
    systemStatus := some sampleStatus
    loading := false
    debugMode := false
    apiCalls := [(statusEndpoint, mkLogEntry "t0" statusEndpoint (some sampleStatus) none)]
    error := none }

/-- A concrete unmounted panel (teardown already happened). -/
def unmountedPanel : PanelState :=
  { mounted := false
    systemStatus := some sampleStatus
    loading := true
    debugMode := false
    apiCalls := [(statusEndpoint, mkLogEntry "t0" statusEndpoint (some sampleStatus) none)]
    error := none }

/-- C1: from a fresh panel, three poll cycles whose fetches succeed with A,
fail with "timeout", then succeed with B leave snapshot B displayed, a null
error field, and exactly one call-log entry for the status endpoint — the
success entry carrying B's data. -/
theorem endToEnd_spec (A B : SystemStatus) (t1 t2 t3 : String) :
    (pollCycle (pollCycle (pollCycle initialPanel t1 (.ok A)) t2
        (.fail (.err ⟨"timeout"⟩))) t3 (.ok B)).systemStatus = some B ∧
    (pollCycle (pollCycle (pollCycle initialPanel t1 (.ok A)) t2
        (.fail (.err ⟨"timeout"⟩))) t3 (.ok B)).error = none ∧
    (pollCycle (pollCycle (pollCycle initialPanel t1 (.ok A)) t2
        (.fail (.err ⟨"timeout"⟩))) t3 (.ok B)).apiCalls =
      [(statusEndpoint, mkLogEntry t3 statusEndpoint (some B) none)] :=
  ⟨rfl, rfl, rfl⟩

/-- C2: a poll cycle whose fetch fails keeps the prior snapshot, sets the
error field to the failure's normalized message, records a failure entry
(status "error") in the call log under the status endpoint, and ends with
the loading flag false; the cycle is a total function, so the failure never
escapes it. -/
theorem pollFailure_spec (st : PanelState) (ts : String) (t : Thrown)
    (h : st.mounted = true) :
    (pollCycle st ts (.fail t)).systemStatus = st.systemStatus ∧
    (pollCycle st ts (.fail t)).error = some (errorMessageOf t) ∧
    (pollCycle st ts (.fail t)).loading = false ∧
    ((pollCycle st ts (.fail t)).apiCalls).lookup statusEndpoint =
      some (mkLogEntry ts statusEndpoint none (some (toJsError t))) ∧
    (mkLogEntry ts statusEndpoint none (some (toJsError t))).status = "error" := by
  obtain ⟨m, ss, ld, dm, ac, er⟩ := st
  replace h : m = true := h
  subst h
  exact ⟨rfl, rfl, rfl, lookup_recordCall_self ac statusEndpoint _, rfl⟩

/-- C2 witness: a failing cycle on a concrete mounted panel that already
displays a snapshot. -/
theorem pollFailure_spec_witness :
    (pollCycle mountedPanelWithData "t9" (.fail (.err ⟨"timeout"⟩))).systemStatus =
      mountedPanelWithData.systemStatus ∧
    (pollCycle mountedPanelWithData "t9" (.fail (.err ⟨"timeout"⟩))).error =
      some (errorMessageOf (.err ⟨"timeout"⟩)) ∧
    (pollCycle mountedPanelWithData "t9" (.fail (.err ⟨"timeout"⟩))).loading = false ∧
    ((pollCycle mountedPanelWithData "t9" (.fail (.err ⟨"timeout"⟩))).apiCalls).lookup
        statusEndpoint =
      some (mkLogEntry "t9" statusEndpoint none (some (toJsError (.err ⟨"timeout"⟩)))) ∧
    (mkLogEntry "t9" statusEndpoint none (some (toJsError (.err ⟨"timeout"⟩)))).status =
      "error" :=
  pollFailure_spec mountedPanelWithData "t9" (.err ⟨"timeout"⟩) rfl

/-- C3: when teardown happened while a fetch was in flight, the late
resolution applies no snapshot, error, log or loading update: the panel
state is unchanged. -/
theorem staleDiscard_spec (st : PanelState) (ts : String) (o : FetchOutcome)
    (h : st.mounted = false) : fetchResolve st ts o = st := by
  cases o <;>
    simp [fetchResolve, logApiCall, setApiCalls, setSystemStatus, setError, setLoading, h]

/-- C3 witness: a late successful resolution against a concrete unmounted
panel leaves it untouched. -/
theorem staleDiscard_spec_witness :
    fetchResolve unmountedPanel "t9" (.ok sampleStatus) = unmountedPanel :=
  staleDiscard_spec unmountedPanel "t9" (.ok sampleStatus) rfl

/-- C10: recording under key k changes no other key's entry and removes no
key: every key logged before is still logged after. -/
theorem recordFrame_spec (l : List (String × ApiCallLog)) (k : String) (v : ApiCallLog) :
    (∀ k' : String, k' ≠ k → (recordCall l k v).lookup k' = l.lookup k') ∧
    (∀ k' : String, k' ∈ l.map Prod.fst → k' ∈ (recordCall l k v).map Prod.fst) := by
  refine ⟨fun k' h => lookup_recordCall_other l k v k' h, fun k' h => ?_⟩
  rw [recordCall_keys]
  split <;> simp [h]

/-- C10 witness: recording under a fresh key "/b" preserves the entry and
the presence of the existing key "/a". -/
theorem recordFrame_spec_witness :
    (recordCall [("/a", mkLogEntry "t0" "/a" none none)] "/b"
        (mkLogEntry "t1" "/b" none (some ⟨"boom"⟩))).lookup "/a" =
      (([("/a", mkLogEntry "t0" "/a" none none)] :
        List (String × ApiCallLog)).lookup "/a") ∧
    "/a" ∈ (recordCall [("/a", mkLogEntry "t0" "/a" none none)] "/b"
        (mkLogEntry "t1" "/b" none (some ⟨"boom"⟩))).map Prod.fst :=
  ⟨(recordFrame_spec [("/a", mkLogEntry "t0" "/a" none none)] "/b"
      (mkLogEntry "t1" "/b" none (some ⟨"boom"⟩))).1 "/a" (by decide),
   (recordFrame_spec [("/a", mkLogEntry "t0" "/a" none none)] "/b"
      (mkLogEntry "t1" "/b" none (some ⟨"boom"⟩))).2 "/a" (by decide)⟩

lemma lookup_isSome_iff_mem_keys (l : List (String × ApiCallLog)) (k : String) :
    (l.lookup k).isSome = true ↔ k ∈ l.map Prod.fst := by
  simp only [List.lookup_isSome_iff, List.mem_map, beq_iff_eq]
  constructor
  · rintro ⟨p, hp, rfl⟩
    exact ⟨p, hp, rfl⟩
  · rintro ⟨p, hp, rfl⟩
    exact ⟨p, hp, rfl⟩

lemma foldl_recordCall_keys (ops : List (String × ApiCallLog))
    (l : List (String × ApiCallLog)) :
    ((ops.foldl (fun acc p => recordCall acc p.1 p.2) l).map Prod.fst) =
      (ops.map Prod.fst).foldl (fun acc k => if k ∈ acc then acc else acc ++ [k])
        (l.map Prod.fst) := by
  induction ops generalizing l with
  | nil => rfl
  | cons p tl ih =>
    obtain ⟨k, v⟩ := p
    simp only [List.foldl_cons, List.map_cons]
    rw [ih]
    congr 1
    rw [recordCall_keys]
    by_cases h : k ∈ l.map Prod.fst
    · rw [if_pos ((lookup_isSome_iff_mem_keys l k).mpr h), if_pos h]
    · rw [if_neg (fun hs => h ((lookup_isSome_iff_mem_keys l k).mp hs)), if_neg h]

lemma foldl_insertNew_nodup (ks : List String) (acc : List String) (h : acc.Nodup) :
    (ks.foldl (fun acc k => if k ∈ acc then acc else acc ++ [k]) acc).Nodup := by
  induction ks generalizing acc with
  | nil => exact h
  | cons k tl ih =>
    simp only [List.foldl_cons]
    by_cases hk : k ∈ acc
    · rw [if_pos hk]
      exact ih acc h
    · rw [if_neg hk]
      refine ih _ (List.Nodup.append h (List.nodup_singleton k) ?_)
      intro a ha ha'
      rw [List.mem_singleton.mp ha'] at ha
      exact hk ha

/-- C5: over every sequence of record operations from the empty log, keys
are pairwise distinct (at most one entry per endpoint), recording under a
key makes its entry the new one, enumeration order is the insertion order of
each key's first appearance, and overwriting a present key leaves the order
unchanged. -/
theorem callLog_spec :
    (∀ ops : List (String × ApiCallLog), ((runLog ops).map Prod.fst).Nodup) ∧
    (∀ (ops : List (String × ApiCallLog)) (k : String) (v : ApiCallLog),
      (recordCall (runLog ops) k v).lookup k = some v) ∧
    (∀ ops : List (String × ApiCallLog),
      (runLog ops).map Prod.fst = firstSeenOrder (ops.map Prod.fst)) ∧
    (∀ (ops : List (String × ApiCallLog)) (k : String) (v : ApiCallLog),
      k ∈ (runLog ops).map Prod.fst →
      (recordCall (runLog ops) k v).map Prod.fst = (runLog ops).map Prod.fst) := by
  have hkeys : ∀ ops : List (String × ApiCallLog),
      (runLog ops).map Prod.fst = firstSeenOrder (ops.map Prod.fst) := by
    intro ops
    unfold runLog firstSeenOrder
    exact foldl_recordCall_keys ops []
  refine ⟨fun ops => ?_, fun ops k v => lookup_recordCall_self (runLog ops) k v,
    hkeys, fun ops k v h => ?_⟩
  · rw [hkeys]
    exact foldl_insertNew_nodup (ops.map Prod.fst) [] List.nodup_nil
  · rw [recordCall_keys, if_pos ((lookup_isSome_iff_mem_keys (runLog ops) k).mpr h)]

/-- C5 witness: overwriting the already-present key of a reachable one-entry
log keeps the enumeration order unchanged. -/
theorem callLog_spec_witness :
    (recordCall (runLog [("/a", mkLogEntry "t0" "/a" none none)]) "/a"
        (mkLogEntry "t1" "/a" none (some ⟨"boom"⟩))).map Prod.fst =
      (runLog [("/a", mkLogEntry "t0" "/a" none none)]).map Prod.fst :=
  callLog_spec.2.2.2 [("/a", mkLogEntry "t0" "/a" none none)] "/a"
    (mkLogEntry "t1" "/a" none (some ⟨"boom"⟩)) (by decide)

lemma schedRun_aux (chunks : List Nat) (e : Nat) :
    chunks.foldl schedElapse ⟨true, e, 1 + e / pollIntervalMs⟩ =
      ⟨true, e + chunks.sum, 1 + (e + chunks.sum) / pollIntervalMs⟩ := by
  induction chunks generalizing e with
  | nil => simp
  | cons ms tl ih =>
    simp only [List.foldl_cons, List.sum_cons]
    have hmono : e / pollIntervalMs ≤ (e + ms) / pollIntervalMs :=
      Nat.div_le_div_right (Nat.le_add_right e ms)
    have hstep : schedElapse ⟨true, e, 1 + e / pollIntervalMs⟩ ms =
        ⟨true, e + ms, 1 + (e + ms) / pollIntervalMs⟩ := by
      simp only [schedElapse, if_true]
      simp only [SchedState.mk.injEq, true_and]
      omega
    rw [hstep, ih]
    simp only [SchedState.mk.injEq, true_and]
    refine ⟨by omega, by rw [Nat.add_assoc]⟩

/-- C4: the scheduler invokes the action once immediately on activation;
after wall-clock advances summing to N interval periods while active it has
invoked the action exactly N+1 times; and once deactivated, elapsing any
further time changes nothing. -/
theorem scheduler_spec :
    schedActivate.invocations = 1 ∧
    (∀ chunks : List Nat, (schedRun chunks).invocations = 1 + chunks.sum / pollIntervalMs) ∧
    (∀ N : Nat, (schedRun [N * pollIntervalMs]).invocations = N + 1) ∧
    (∀ (s : SchedState) (ms : Nat), schedElapse (schedDeactivate s) ms = schedDeactivate s) := by
  have hrun : ∀ chunks : List Nat, schedRun chunks =
      ⟨true, chunks.sum, 1 + chunks.sum / pollIntervalMs⟩ := by
    intro chunks
    have h0 : schedActivate = (⟨true, 0, 1 + 0 / pollIntervalMs⟩ : SchedState) := by
      simp [schedActivate, Nat.zero_div]
    unfold schedRun
    rw [h0, schedRun_aux]
    simp
  refine ⟨rfl, fun chunks => by rw [hrun], fun N => ?_, fun s ms => ?_⟩
  · rw [hrun]
    show 1 + List.sum [N * pollIntervalMs] / pollIntervalMs = N + 1
    simp only [List.sum_cons, List.sum_nil, Nat.add_zero, pollIntervalMs]
    omega
  · simp [schedElapse, schedDeactivate]
